import Mathlib

/-!
Verification development for the progressive feature loader and
multi-criteria filter engine of the chiblomap2 application.

The definitions below are a shallow embedding of the TypeScript source
(src/lib/components/Map.svelte and the related loading-screen component).
Strings are modelled as lists of Unicode code points, JavaScript numbers
used as counters as natural numbers, and Unix timestamps as integers.
-/

/-- Strings are modelled as lists of Unicode code points. -/
abbrev Str := List Nat

/-- JavaScript toLowerCase, restricted to the ASCII letters: code points
65 to 90 are shifted to 97 to 122 and every other code point is kept.
The code points used by the application data (Japanese text and ASCII)
are covered by this mapping. -/
def toLowerChar (c : Nat) : Nat := if 65 ≤ c ∧ c ≤ 90 then c + 32 else c

/-- Code-point-wise lowering, the model of String.prototype.toLowerCase. -/
def toLower (s : Str) : Str := s.map toLowerChar

/-- White-space code points stripped by String.prototype.trim
(space, tab, line feed, vertical tab, form feed, carriage return). -/
def isWhiteChar (c : Nat) : Bool :=
  decide (c = 32 ∨ c = 9 ∨ c = 10 ∨ c = 11 ∨ c = 12 ∨ c = 13)

/-- The model of String.prototype.trim: drop white space from both ends. -/
def trim (s : Str) : Str :=
  ((s.dropWhile isWhiteChar).reverse.dropWhile isWhiteChar).reverse

/-- The model of hay.includes(needle): the needle occurs as a contiguous
substring of the haystack. -/
def includes : Str → Str → Bool
  | [], needle => needle.isEmpty
  | a :: t, needle => needle.isPrefixOf (a :: t) || includes t needle

/-- Sanity check for the substring test: it agrees with the infix relation. -/
theorem includes_iff_infix (hay needle : Str) :
    includes hay needle = true ↔ List.IsInfix needle hay := by
  induction hay with
  | nil =>
      simp [includes, List.isEmpty_iff]
  | cons a t ih =>
      simp only [includes, Bool.or_eq_true, ih, List.isPrefixOf_iff_prefix]
      constructor
      · rintro (h | h)
        · exact h.isInfix
        · exact List.infix_cons_iff.mpr (Or.inr h)
      · intro h
        rcases List.infix_cons_iff.mp h with h | h
        · exact Or.inl h
        · exact Or.inr h

/-- Case-insensitive substring relation: the needle, lowered, occurs inside
the haystack, lowered.  This is the reading of the phrase, used by the
specification, that a keyword case-insensitively substring-matches a field. -/
def ciSubstr (needle hay : Str) : Bool := includes (toLower hay) (toLower needle)

theorem isWhiteChar_toLowerChar (c : Nat) :
    isWhiteChar (toLowerChar c) = isWhiteChar c := by
  unfold toLowerChar isWhiteChar
  split
  · exact decide_eq_decide.mpr (by omega)
  · rfl

theorem dropWhile_map_toLowerChar (l : List Nat) :
    (l.map toLowerChar).dropWhile isWhiteChar
      = (l.dropWhile isWhiteChar).map toLowerChar := by
  induction l with
  | nil => rfl
  | cons a t ih =>
      simp only [List.map_cons, List.dropWhile_cons, isWhiteChar_toLowerChar a]
      by_cases h : isWhiteChar a = true
      · simp [h, ih]
      · simp [h]

theorem trim_toLower (s : Str) : trim (toLower s) = toLower (trim s) := by
  unfold trim toLower
  rw [dropWhile_map_toLowerChar, ← List.map_reverse, dropWhile_map_toLowerChar,
    ← List.map_reverse]

theorem toLower_eq_nil_iff (s : Str) : toLower s = [] ↔ s = [] := by
  unfold toLower
  exact List.map_eq_nil_iff

/-!
Data model.  A feature record decoded from the FlatGeoBuf stream.  The fid
is assigned by the upstream data source and is present on every record
(data-model invariant of the stream); every other property may be absent,
in which case the consuming code substitutes a documented default
(props.name_poi or an empty string, props.date_stamp or 0, and so on).
The point geometry is omitted: the filter engine never reads it, the
viewport query being delegated to the external rendering engine.
-/

structure Feature where
  fid : Nat
  name_poi : Option Str
  flag_poi : Option Str
  blog_source : Option Str
  title_source : Option Str
  link_source : Option Str
  date_text : Option Str
  date_stamp : Option Int
  url_flag : Option Str
  url_link : Option Str
deriving DecidableEq

/-- The filter state held by the component: the free-text keyword box, the
selected period option (0 meaning all time) and the list of selected
category identifiers. -/
structure FilterState where
  filterKeyword : Str
  selectedPeriod : Nat
  selectedCategories : List Str
deriving DecidableEq

/-- The periodOptions table of the component: for an option value, the
days span it stands for (none meaning all time).  Values outside the
table yield none, mirroring Array.prototype.find returning undefined. -/
def periodOptionDays (p : Nat) : Option (Option Int) :=
  if p = 0 then some none
  else if p = 1 then some (some 30)
  else if p = 2 then some (some 90)
  else if p = 3 then some (some 180)
  else if p = 4 then some (some 365)
  else none

/-- getPeriodTimestamp: all time maps to 0; otherwise the current time in
milliseconds minus the span, floor-divided to Unix seconds. -/
def getPeriodTimestamp (days : Option Int) (nowMs : Int) : Int :=
  match days with
  | none => 0
  | some d => Int.fdiv (nowMs - d * 86400000) 1000

/-- The period cutoff computed at the top of applyCombinedFilter: the
looked-up option when it exists, otherwise 0. -/
def periodTimestampOf (p : Nat) (nowMs : Int) : Int :=
  match periodOptionDays p with
  | some days => getPeriodTimestamp days nowMs
  | none => 0

/-- The categoryOptions table: category identifier paired with its keyword
list.  Identifiers and keywords are given as code-point lists of the
literals in the source (cafe, ramen, sushi, westernfood, park). -/
def categoryOptions : List (Str × List Str) :=
  [([99,97,102,101],
     [[12459,12501,12455], [99,97,102,101], [21931,33590,24215],
      [12467,12540,12498,12540], [99,111,102,102,101,101]]),
   ([114,97,109,101,110],
     [[12521,12540,12513,12531], [114,97,109,101,110],
      [12425,12540,12417,12435], [40634,23627]]),
   ([115,117,115,104,105],
     [[23551,21496], [39848]]),
   ([119,101,115,116,101,114,110,102,111,111,100],
     [[12524,12473,12488,12521,12531], [12452,12479,12522,12450,12531],
      [12501,12524,12531,12481]]),
   ([112,97,114,107],
     [[20844,22290]])]

/-- categoryOptions.find on a category identifier, projected to the
keyword list. -/
def lookupCategory (cid : Str) : Option (List Str) :=
  (categoryOptions.find? (fun c => c.fst == cid)).map (fun c => c.snd)

/-- The categoryKeywords accumulation of applyCombinedFilter: the keyword
lists of the selected categories, concatenated in selection order;
an unknown identifier contributes nothing. -/
def collectCategoryKeywords (sel : List Str) : List Str :=
  sel.flatMap (fun cid => (lookupCategory cid).getD [])

/-- The keyword normalisation at the top of applyCombinedFilter:
filterKeyword.toLowerCase().trim(). -/
def processKeyword (filterKeyword : Str) : Str := trim (toLower filterKeyword)

/-- The period sub-test of the applyCombinedFilter predicate: with a period
selected, a feature whose date_stamp (defaulting to 0) lies before the
cutoff is rejected. -/
def periodTest (p : Nat) (nowMs : Int) (f : Feature) : Bool :=
  if p > 0 then
    if f.date_stamp.getD 0 < periodTimestampOf p nowMs then false else true
  else true

/-- The keyword sub-test of the applyCombinedFilter predicate, applied to
the normalised keyword: with a non-empty keyword, some of the four search
targets (name_poi, flag_poi, blog_source, title_source, each defaulting to
the empty string) must contain the keyword after lowering. -/
def keywordTest (keyword : Str) (f : Feature) : Bool :=
  if keyword.length > 0 then
    [f.name_poi.getD [], f.flag_poi.getD [], f.blog_source.getD [],
      f.title_source.getD []].any
      (fun target => includes (toLower target) keyword)
  else true

/-- The category sub-test of the applyCombinedFilter predicate: with a
non-empty collected keyword list, some category keyword must match one of
the two category targets (name_poi, title_source) case-insensitively. -/
def categoryTest (categoryKeywords : List Str) (f : Feature) : Bool :=
  if categoryKeywords.length > 0 then
    categoryKeywords.any (fun ck =>
      [f.name_poi.getD [], f.title_source.getD []].any
        (fun target => includes (toLower target) (toLower ck)))
  else true

/-- The whole per-feature predicate of applyCombinedFilter: the three
sub-tests in the order of the early returns of the source. -/
def featureMatches (nowMs : Int) (st : FilterState) (f : Feature) : Bool :=
  periodTest st.selectedPeriod nowMs f
    && keywordTest (processKeyword st.filterKeyword) f
    && categoryTest (collectCategoryKeywords st.selectedCategories) f

/-- The full match set: the features of the store passing the combined
predicate, in store order. -/
def fullMatchSet (nowMs : Int) (st : FilterState) (store : List Feature) :
    List Feature :=
  store.filter (featureMatches nowMs st)

/-!
Layer filter expressions.  The engine hands the external rendering engine
either no filter (setFilter null), an fid-inclusion expression
(match get fid fids true false), or the match-nothing sentinel
(has poi_nonexistent).
-/

inductive LayerFilter where
  | noFilter : LayerFilter
  | matchFids : List Nat → LayerFilter
  | hasProp : Str → LayerFilter
deriving DecidableEq

/-- The property name of the sentinel expression (poi_nonexistent). -/
def propNonexistent : Str :=
  [112,111,105,95,110,111,110,101,120,105,115,116,101,110,116]

/-- The sentinel match-nothing expression set by applyCombinedFilter when
zero features match. -/
def sentinelFilter : LayerFilter := LayerFilter.hasProp propNonexistent

/-- Whether a decoded feature carries a property of the given name, per the
fixed wire schema: fid is always present, every other property only when
its field is set. -/
def featureHasProp (f : Feature) (p : Str) : Bool :=
  p == [102,105,100]
    || (f.name_poi.isSome && p == [110,97,109,101,95,112,111,105])
    || (f.flag_poi.isSome && p == [102,108,97,103,95,112,111,105])
    || (f.blog_source.isSome && p == [98,108,111,103,95,115,111,117,114,99,101])
    || (f.title_source.isSome && p == [116,105,116,108,101,95,115,111,117,114,99,101])
    || (f.link_source.isSome && p == [108,105,110,107,95,115,111,117,114,99,101])
    || (f.date_text.isSome && p == [100,97,116,101,95,116,101,120,116])
    || (f.date_stamp.isSome && p == [100,97,116,101,95,115,116,97,109,112])
    || (f.url_flag.isSome && p == [117,114,108,95,102,108,97,103])
    || (f.url_link.isSome && p == [117,114,108,95,108,105,110,107])

/-- Evaluation of a layer filter expression on a feature, following the
semantics of the rendering engine filter grammar: no filter passes
everything, a match expression passes features whose fid is listed, a has
expression passes features carrying the property. -/
def evalLayerFilter : LayerFilter → Feature → Bool
  | LayerFilter.noFilter, _ => true
  | LayerFilter.matchFids fids, f => fids.contains f.fid
  | LayerFilter.hasProp p, f => featureHasProp f p

/-- The filters of the three layers driven by the engine
(poi-points, poi-heat, poi-text). -/
structure RenderLayers where
  poiPoints : LayerFilter
  poiHeat : LayerFilter
  poiText : LayerFilter
deriving DecidableEq

/-- All three layer filters removed (setFilter null on each layer). -/
def noFilterLayers : RenderLayers :=
  ⟨LayerFilter.noFilter, LayerFilter.noFilter, LayerFilter.noFilter⟩

/-- applyCombinedFilter: compute the matching features; when some match,
set the fid-inclusion expression built from their fids on all three
layers, otherwise set the sentinel on all three layers; the visible count
becomes the number of matching features. -/
def applyCombinedFilter (nowMs : Int) (st : FilterState)
    (store : List Feature) : RenderLayers × Nat :=
  let matchingFeatures := fullMatchSet nowMs st store
  if matchingFeatures.length > 0 then
    let e := LayerFilter.matchFids (matchingFeatures.map Feature.fid)
    (⟨e, e, e⟩, matchingFeatures.length)
  else
    (⟨sentinelFilter, sentinelFilter, sentinelFilter⟩, matchingFeatures.length)

/-- The guard of applyFilter: a non-empty trimmed keyword, a period other
than all time, or a non-empty category selection. -/
def criteriaActive (st : FilterState) : Bool :=
  (trim st.filterKeyword).length > 0
    || st.selectedPeriod > 0
    || st.selectedCategories.length > 0

/-- applyFilter: run the combined filter when some criterion is active,
otherwise clear all layer filters (clearAllFilters), which leaves the
visible count untouched. -/
def applyFilter (nowMs : Int) (st : FilterState) (store : List Feature)
    (prevVisible : Nat) : RenderLayers × Nat :=
  if criteriaActive st then applyCombinedFilter nowMs st store
  else (noFilterLayers, prevVisible)

/-- The filter state after clearFilter resets every field. -/
def clearedFilterState : FilterState := ⟨[], 0, []⟩

/-- clearFilter: reset every filter state field, remove the filter from
every layer, and report the whole store as visible. -/
def clearFilter (store : List Feature) : FilterState × RenderLayers × Nat :=
  (clearedFilterState, noFilterLayers, store.length)

/-- updateCenterPOIs: given the features returned by the viewport query,
store their uncapped number as totalPOICount and the first 99 of them as
centerPOIs; the layer filters are not touched. -/
def updateCenterPOIs (layers : RenderLayers) (viewportFeatures : List Feature) :
    RenderLayers × List Feature × Nat :=
  (layers, viewportFeatures.take 99, viewportFeatures.length)

/-!
Progressive loader: flush cadence and progress reporting.
-/

/-- The flush guard inside the decode loop of loadPOIData: push the store
to the rendering layers when the count of decoded features reaches the
declared total (known to be positive) or is a multiple of 256. -/
def flushCondition (totalFeatures storeLen : Nat) : Bool :=
  (totalFeatures > 0 && storeLen == totalFeatures) || storeLen % 256 == 0

/-- The progress update inside the decode loop of loadPOIData: with a known
positive total, the floor of the loaded share in percent; otherwise the
previous value is kept and no division is performed. -/
def loadingProgressStep (totalFeatures storeLen prev : Nat) : Nat :=
  if totalFeatures > 0 then storeLen * 100 / totalFeatures else prev

/-- The displayed progress of the loading-screen component: with a positive
total, Math.round of the loaded share in percent (for non-negative x,
Math.round x = floor (x + 1/2), here in exact rational arithmetic);
with a zero total it is 0. -/
def screenProgress (loadedCount totalCount : Nat) : Nat :=
  if totalCount > 0 then (2 * (loadedCount * 100) + totalCount) / (2 * totalCount)
  else 0

/-!
Load path error handling (loadPOIData try/catch).
-/

/-- One load attempt as observed at the suspension points of loadPOIData:
whether the HTTP response was ok, whether it carried a body, the records
the decode yields, and whether the decode throws after yielding them. -/
structure LoadInput where
  httpOk : Bool
  bodyPresent : Bool
  records : List Feature
  decodeFailure : Bool
deriving DecidableEq

/-- The outcome of one load attempt: the final store contents, the
isDataLoaded flag, and whether an error notification was dispatched. -/
structure LoadResult where
  store : List Feature
  isDataLoaded : Bool
  errorNotified : Bool
deriving DecidableEq

/-- The records actually appended during the attempt: none when the fetch
itself fails, otherwise every record yielded before the decode ends or
throws. -/
def decodedRecords (inp : LoadInput) : List Feature :=
  if inp.httpOk && inp.bodyPresent then inp.records else []

/-- loadPOIData: a non-ok response or a missing body throws before any
record is appended; a decode failure throws after the yielded records were
appended.  Every throw lands in the catch block, which keeps the store,
sets isDataLoaded and dispatches the error; nothing escapes the function
and nothing is retried. -/
def loadPOIData (inp : LoadInput) (prevStore : List Feature) : LoadResult :=
  if !inp.httpOk then
    { store := prevStore, isDataLoaded := true, errorNotified := true }
  else if !inp.bodyPresent then
    { store := prevStore, isDataLoaded := true, errorNotified := true }
  else if inp.decodeFailure then
    { store := prevStore ++ inp.records, isDataLoaded := true,
      errorNotified := true }
  else
    { store := prevStore ++ inp.records, isDataLoaded := true,
      errorNotified := false }

/-- A sample feature used to instantiate proved properties: named cafe,
with every optional property absent. -/
def sampleCafeFeature : Feature :=
  ⟨1, some [99,97,102,101], none, none, none, none, none, none, none, none⟩

/-!
Theorems.  Helper lemmas first, then one theorem per claim of the
specification, each preceded by a comment naming the claim.
-/

theorem sentinel_matches_nothing (f : Feature) :
    evalLayerFilter sentinelFilter f = false := by
  unfold evalLayerFilter sentinelFilter featureHasProp
  have h1 : (propNonexistent == ([102,105,100] : Str)) = false := by decide
  have h2 : (propNonexistent == ([110,97,109,101,95,112,111,105] : Str)) = false := by
    decide
  have h3 : (propNonexistent == ([102,108,97,103,95,112,111,105] : Str)) = false := by
    decide
  have h4 : (propNonexistent == ([98,108,111,103,95,115,111,117,114,99,101] : Str)) = false := by
    decide
  have h5 : (propNonexistent == ([116,105,116,108,101,95,115,111,117,114,99,101] : Str)) = false := by
    decide
  have h6 : (propNonexistent == ([108,105,110,107,95,115,111,117,114,99,101] : Str)) = false := by
    decide
  have h7 : (propNonexistent == ([100,97,116,101,95,116,101,120,116] : Str)) = false := by
    decide
  have h8 : (propNonexistent == ([100,97,116,101,95,115,116,97,109,112] : Str)) = false := by
    decide
  have h9 : (propNonexistent == ([117,114,108,95,102,108,97,103] : Str)) = false := by
    decide
  have h10 : (propNonexistent == ([117,114,108,95,108,105,110,107] : Str)) = false := by
    decide
  simp [h1, h2, h3, h4, h5, h6, h7, h8, h9, h10]

/-- Claim C1: the keyword test of the filter engine passes a feature
exactly when the (trimmed) keyword is empty, or the keyword is a
case-insensitive substring of at least one of the name_poi, flag_poi,
blog_source and title_source fields of the feature, each field defaulting
to the empty string when absent.  (The engine normalises the raw keyword
by lowering and trimming before the test, cf. claim C10.) -/
theorem keyword_test_spec (kw : Str) (f : Feature) :
    keywordTest (processKeyword kw) f = true ↔
      (trim kw = [] ∨
        ciSubstr (trim kw) (f.name_poi.getD []) = true ∨
        ciSubstr (trim kw) (f.flag_poi.getD []) = true ∨
        ciSubstr (trim kw) (f.blog_source.getD []) = true ∨
        ciSubstr (trim kw) (f.title_source.getD []) = true) := by
  have hk : processKeyword kw = toLower (trim kw) := trim_toLower kw
  rw [hk]
  unfold keywordTest
  by_cases h : trim kw = []
  · simp [h, toLower]
  · have hne : toLower (trim kw) ≠ [] := fun hc => h ((toLower_eq_nil_iff _).mp hc)
    have hlen : 0 < (toLower (trim kw)).length := List.length_pos.mpr hne
    rw [if_pos hlen]
    simp [ciSubstr, h, List.any_cons, List.any_nil, Bool.or_eq_true]

/-- Claim C4: during one decode of a stream declaring N features, a render
flush is triggered after the c-th decoded record exactly when c is a
multiple of 256 or c equals N; for N = 1000 the flushes happen exactly at
counts 256, 512, 768 and 1000, the final one unconditionally. -/
theorem flush_cadence (N c : Nat) (hc : 1 ≤ c) :
    (flushCondition N c = true ↔ (c % 256 = 0 ∨ c = N)) ∧
    (N = 1000 → c ≤ 1000 →
      (flushCondition N c = true ↔
        (c = 256 ∨ c = 512 ∨ c = 768 ∨ c = 1000))) := by
  refine ⟨?_, ?_⟩
  · simp only [flushCondition, Bool.or_eq_true, Bool.and_eq_true,
      decide_eq_true_eq, beq_iff_eq]
    omega
  · intro hN hle
    subst hN
    simp only [flushCondition, Bool.or_eq_true, Bool.and_eq_true,
      decide_eq_true_eq, beq_iff_eq]
    omega

theorem flush_cadence_witness :
    1 ≤ 256 ∧
    ((flushCondition 1000 256 = true ↔ (256 % 256 = 0 ∨ 256 = 1000)) ∧
      (1000 = 1000 → 256 ≤ 1000 →
        (flushCondition 1000 256 = true ↔
          (256 = 256 ∨ 256 = 512 ∨ 256 = 768 ∨ 256 = 1000)))) :=
  ⟨by decide, flush_cadence 1000 256 (by decide)⟩

/-- Claim C5 counterexample: the progress displayed by the loading screen
is not the floor of the loaded share.  After 1 of 8 records it shows 13
(Math.round of 12.5) while the floor, clamped to the unit range, is 12;
and with a zero total it shows 0 instead of keeping a last known value. -/
theorem screen_progress_not_floor :
    screenProgress 1 8 ≠ min 100 (1 * 100 / 8) ∧
    screenProgress 1 8 = 13 ∧
    1 * 100 / 8 = 12 ∧
    screenProgress 7 0 = 0 := by decide

/-- Claim C5 (amended): the internal decode-loop progress equals the floor
of the loaded share in percent, which given loadedCount at most totalCount
already lies in the unit range so clamping is the identity on it, and with
a zero or unknown total the loop performs no division and keeps the last
value; the progress displayed by the loading screen, however, is computed
with Math.round rather than floor and shows 0 whenever its total input is
zero. -/
theorem progress_floor_and_sticky (total len prev : Nat) (htot : 0 < total)
    (hle : len ≤ total) :
    loadingProgressStep total len prev = len * 100 / total ∧
    loadingProgressStep total len prev = min 100 (len * 100 / total) ∧
    loadingProgressStep 0 len prev = prev ∧
    screenProgress len 0 = 0 := by
  have hb : len * 100 / total ≤ 100 := by
    have h1 : len * 100 ≤ total * 100 := Nat.mul_le_mul_right 100 hle
    have h2 : len * 100 / total ≤ total * 100 / total := Nat.div_le_div_right h1
    have h3 : total * 100 / total = 100 := by
      rw [Nat.mul_comm]
      exact Nat.mul_div_cancel 100 htot
    omega
  refine ⟨?_, ?_, ?_, ?_⟩
  · unfold loadingProgressStep
    rw [if_pos htot]
  · unfold loadingProgressStep
    rw [if_pos htot]
    exact (min_eq_right hb).symm
  · simp [loadingProgressStep]
  · simp [screenProgress]

theorem progress_floor_and_sticky_witness :
    0 < 8 ∧ 1 ≤ 8 ∧
    (loadingProgressStep 8 1 5 = 1 * 100 / 8 ∧
      loadingProgressStep 8 1 5 = min 100 (1 * 100 / 8) ∧
      loadingProgressStep 0 1 5 = 5 ∧
      screenProgress 1 0 = 0) :=
  ⟨by decide, by decide, progress_floor_and_sticky 8 1 5 (by decide) (by decide)⟩

/-- Claim C6: with a known positive total and never more records decoded
than declared, the decode-loop progress is monotonically non-decreasing in
the number of appended records and reaches 100 exactly when the store
length equals the total. -/
theorem progress_monotone_and_complete (total j k pj pk : Nat)
    (htot : 0 < total) (hjk : j ≤ k) (hk : k ≤ total) :
    loadingProgressStep total j pj ≤ loadingProgressStep total k pk ∧
    (loadingProgressStep total k pk = 100 ↔ k = total) := by
  unfold loadingProgressStep
  rw [if_pos htot, if_pos htot]
  refine ⟨Nat.div_le_div_right (Nat.mul_le_mul_right 100 hjk), ?_, ?_⟩
  · intro h
    have h2 : 100 ≤ k * 100 / total := le_of_eq h.symm
    have h3 : 100 * total ≤ k * 100 := (Nat.le_div_iff_mul_le htot).mp h2
    omega
  · rintro rfl
    rw [Nat.mul_comm]
    exact Nat.mul_div_cancel 100 htot

theorem progress_monotone_and_complete_witness :
    0 < 4 ∧ 1 ≤ 4 ∧ 4 ≤ 4 ∧
    (loadingProgressStep 4 1 0 ≤ loadingProgressStep 4 4 0 ∧
      (loadingProgressStep 4 4 0 = 100 ↔ 4 = 4)) :=
  ⟨by decide, by decide, by decide,
    progress_monotone_and_complete 4 1 4 0 0 (by decide) (by decide) (by decide)⟩

theorem mem_collect_iff (sel : List Str) (kw : Str) :
    kw ∈ collectCategoryKeywords sel ↔
      ∃ cid ∈ sel, ∃ kws, lookupCategory cid = some kws ∧ kw ∈ kws := by
  unfold collectCategoryKeywords
  rw [List.mem_flatMap]
  constructor
  · rintro ⟨cid, hcid, hkw⟩
    cases hl : lookupCategory cid with
    | none => rw [hl] at hkw; simp at hkw
    | some kws =>
        rw [hl] at hkw
        exact ⟨cid, hcid, kws, hl, by simpa using hkw⟩
  · rintro ⟨cid, hcid, kws, hl, hkw⟩
    refine ⟨cid, hcid, ?_⟩
    rw [hl]
    simpa using hkw

theorem lookup_keywords_ne_nil (cid : Str) (kws : List Str)
    (h : lookupCategory cid = some kws) : kws ≠ [] := by
  unfold lookupCategory at h
  cases hf : categoryOptions.find? (fun c => c.fst == cid) with
  | none => rw [hf] at h; simp at h
  | some c =>
      rw [hf] at h
      simp only [Option.map_some', Option.some.injEq] at h
      have hmem : c ∈ categoryOptions := List.mem_of_find?_eq_some hf
      have hall : ∀ x ∈ categoryOptions, x.snd ≠ [] := by decide
      rw [← h]
      exact hall c hmem

theorem collect_cons_ne_nil (c0 : Str) (rest : List Str) (kws0 : List Str)
    (h : lookupCategory c0 = some kws0) :
    collectCategoryKeywords (c0 :: rest) ≠ [] := by
  have hne := lookup_keywords_ne_nil c0 kws0 h
  unfold collectCategoryKeywords
  rw [List.flatMap_cons, h]
  simp [hne]

/-- Claim C2: for selected categories drawn from the category table, the
category test passes a feature exactly when the selection is empty, or
some keyword of the keyword list of some selected category is a
case-insensitive substring of the name_poi or title_source field of the
feature: a disjunction across the selected categories and a disjunction
inside each keyword list, never a conjunction. -/
theorem category_test_spec (sel : List Str) (f : Feature)
    (hvalid : ∀ cid ∈ sel, (lookupCategory cid).isSome = true) :
    categoryTest (collectCategoryKeywords sel) f = true ↔
      (sel = [] ∨ ∃ cid ∈ sel, ∃ kws, lookupCategory cid = some kws ∧
        ∃ kw ∈ kws,
          (ciSubstr kw (f.name_poi.getD []) = true ∨
            ciSubstr kw (f.title_source.getD []) = true)) := by
  cases sel with
  | nil => simp [collectCategoryKeywords, categoryTest]
  | cons c0 rest =>
      have h0 := hvalid c0 (List.mem_cons_self c0 rest)
      obtain ⟨kws0, hk0⟩ := Option.isSome_iff_exists.mp h0
      have hne := collect_cons_ne_nil c0 rest kws0 hk0
      have hlen : 0 < (collectCategoryKeywords (c0 :: rest)).length :=
        List.length_pos.mpr hne
      unfold categoryTest
      rw [if_pos hlen, List.any_eq_true]
      constructor
      · rintro ⟨ck, hmem, hp⟩
        rcases (mem_collect_iff (c0 :: rest) ck).mp hmem with
          ⟨cid, hcid, kws, hl, hck⟩
        refine Or.inr ⟨cid, hcid, kws, hl, ck, hck, ?_⟩
        simpa [ciSubstr, List.any_cons, List.any_nil, Bool.or_eq_true] using hp
      · rintro (habs | ⟨cid, hcid, kws, hl, ck, hck, hp⟩)
        · exact absurd habs (List.cons_ne_nil c0 rest)
        · refine ⟨ck, (mem_collect_iff _ _).mpr ⟨cid, hcid, kws, hl, hck⟩, ?_⟩
          simpa [ciSubstr, List.any_cons, List.any_nil, Bool.or_eq_true] using hp

theorem category_test_spec_witness :
    (∀ cid ∈ [([99,97,102,101] : Str)], (lookupCategory cid).isSome = true) ∧
    (categoryTest (collectCategoryKeywords [[99,97,102,101]]) sampleCafeFeature
        = true ↔
      ([([99,97,102,101] : Str)] = [] ∨
        ∃ cid ∈ [([99,97,102,101] : Str)], ∃ kws,
          lookupCategory cid = some kws ∧
          ∃ kw ∈ kws,
            (ciSubstr kw (sampleCafeFeature.name_poi.getD []) = true ∨
              ciSubstr kw (sampleCafeFeature.title_source.getD []) = true))) :=
  ⟨by decide, category_test_spec [[99,97,102,101]] sampleCafeFeature (by decide)⟩

/-- Claim C3: whenever some filter criterion is active and the computed
full match set is empty, applying the filter sets the match-nothing
sentinel, an expression no feature can satisfy, on every layer the engine
drives; and no run of the engine ever hands a layer an id-inclusion
expression with an empty id list. -/
theorem empty_match_sentinel (nowMs : Int) (st : FilterState)
    (store : List Feature) (prevVisible : Nat)
    (hactive : criteriaActive st = true)
    (hempty : fullMatchSet nowMs st store = []) :
    ((applyFilter nowMs st store prevVisible).fst =
        ⟨sentinelFilter, sentinelFilter, sentinelFilter⟩ ∧
      ∀ f : Feature, evalLayerFilter sentinelFilter f = false) ∧
    ∀ (now2 : Int) (st2 : FilterState) (store2 : List Feature) (prev2 : Nat),
      (applyFilter now2 st2 store2 prev2).fst.poiPoints ≠
          LayerFilter.matchFids [] ∧
        (applyFilter now2 st2 store2 prev2).fst.poiHeat ≠
          LayerFilter.matchFids [] ∧
        (applyFilter now2 st2 store2 prev2).fst.poiText ≠
          LayerFilter.matchFids [] := by
  refine ⟨⟨?_, sentinel_matches_nothing⟩, ?_⟩
  · simp [applyFilter, hactive, applyCombinedFilter, hempty]
  · intro now2 st2 store2 prev2
    unfold applyFilter
    by_cases hact : criteriaActive st2 = true
    · rw [if_pos hact]
      unfold applyCombinedFilter
      by_cases hlen : 0 < (fullMatchSet now2 st2 store2).length
      · simp only [if_pos hlen]
        have hmap : (fullMatchSet now2 st2 store2).map Feature.fid ≠ [] := by
          intro hc
          have := List.map_eq_nil_iff.mp hc
          rw [this] at hlen
          simp at hlen
        refine ⟨?_, ?_, ?_⟩ <;>
          · intro hc
            exact hmap (LayerFilter.matchFids.inj hc)
      · simp only [if_neg hlen]
        refine ⟨?_, ?_, ?_⟩ <;> simp [sentinelFilter]
    · rw [if_neg hact]
      refine ⟨?_, ?_, ?_⟩ <;> simp [noFilterLayers]

theorem empty_match_sentinel_witness :
    criteriaActive ⟨[120], 0, []⟩ = true ∧
    fullMatchSet 0 ⟨[120], 0, []⟩ [] = [] ∧
    (((applyFilter 0 ⟨[120], 0, []⟩ [] 0).fst =
        ⟨sentinelFilter, sentinelFilter, sentinelFilter⟩ ∧
      ∀ f : Feature, evalLayerFilter sentinelFilter f = false) ∧
    ∀ (now2 : Int) (st2 : FilterState) (store2 : List Feature) (prev2 : Nat),
      (applyFilter now2 st2 store2 prev2).fst.poiPoints ≠
          LayerFilter.matchFids [] ∧
        (applyFilter now2 st2 store2 prev2).fst.poiHeat ≠
          LayerFilter.matchFids [] ∧
        (applyFilter now2 st2 store2 prev2).fst.poiText ≠
          LayerFilter.matchFids []) :=
  ⟨by decide, rfl, empty_match_sentinel 0 ⟨[120], 0, []⟩ [] 0 (by decide) rfl⟩

/-- Claim C7: clearing every filter state field and re-applying the filter
removes the filter expression from every layer the engine drives, under
which the match set is the whole store, and the reported visible count is
the store length. -/
theorem clear_filter_restores_all (nowMs : Int) (store : List Feature)
    (prevVisible : Nat) :
    (clearFilter store).snd.fst = noFilterLayers ∧
    (clearFilter store).snd.snd = store.length ∧
    applyFilter nowMs clearedFilterState store prevVisible =
      (noFilterLayers, prevVisible) ∧
    store.filter (evalLayerFilter LayerFilter.noFilter) = store := by
  refine ⟨rfl, rfl, ?_, ?_⟩
  · have hc : criteriaActive clearedFilterState = false := by decide
    simp [applyFilter, hc]
  · exact List.filter_eq_self.mpr (fun a _ => rfl)

/-- Claim C8: the list projection takes a display-capped prefix of at most
99 entries from the viewport query result, reports the uncapped size of
that result as the true count, and leaves the layer filters untouched. -/
theorem display_cap_spec (layers : RenderLayers) (vp : List Feature) :
    (updateCenterPOIs layers vp).fst = layers ∧
    (updateCenterPOIs layers vp).snd.fst = vp.take 99 ∧
    List.IsPrefix ((updateCenterPOIs layers vp).snd.fst) vp ∧
    ((updateCenterPOIs layers vp).snd.fst).length ≤ 99 ∧
    (updateCenterPOIs layers vp).snd.snd = vp.length := by
  refine ⟨rfl, rfl, ⟨vp.drop 99, List.take_append_drop 99 vp⟩, ?_, rfl⟩
  show (vp.take 99).length ≤ 99
  exact List.length_take_le 99 vp

/-- Claim C9: on a transport failure (network error, non-success status,
missing body) or an error thrown during decode, the load ends in a failed
state with isDataLoaded set and an error notification dispatched, the
records appended before the failure are retained unchanged, and the load
function returns normally, performing no retry. -/
theorem load_failure_degrades (inp : LoadInput) (prev : List Feature)
    (hfail : inp.httpOk = false ∨ inp.bodyPresent = false ∨
      inp.decodeFailure = true) :
    (loadPOIData inp prev).errorNotified = true ∧
    (loadPOIData inp prev).isDataLoaded = true ∧
    (loadPOIData inp prev).store = prev ++ decodedRecords inp := by
  unfold loadPOIData decodedRecords
  rcases hfail with h | h | h
  · simp [h]
  · cases hok : inp.httpOk
    · simp [hok, h]
    · simp [hok, h]
  · cases hok : inp.httpOk
    · simp [hok]
    · cases hb : inp.bodyPresent
      · simp [hok, hb]
      · simp [hok, hb, h]

theorem load_failure_degrades_witness :
    ((⟨false, true, [], false⟩ : LoadInput).httpOk = false ∨
      (⟨false, true, [], false⟩ : LoadInput).bodyPresent = false ∨
      (⟨false, true, [], false⟩ : LoadInput).decodeFailure = true) ∧
    ((loadPOIData ⟨false, true, [], false⟩ []).errorNotified = true ∧
      (loadPOIData ⟨false, true, [], false⟩ []).isDataLoaded = true ∧
      (loadPOIData ⟨false, true, [], false⟩ []).store =
        [] ++ decodedRecords ⟨false, true, [], false⟩) :=
  ⟨Or.inl rfl, load_failure_degrades ⟨false, true, [], false⟩ [] (Or.inl rfl)⟩

/-- Claim C10: the keyword is trimmed before both the activity check and
the matching, so two raw keywords with the same trim produce the same
layer filters and the same visible count; and a keyword of nothing but
white space, with no period and no category selected, activates no
criterion: applying the filter then clears every layer filter instead of
computing a match set. -/
theorem trim_invariance (nowMs : Int) (store : List Feature)
    (prevVisible : Nat) (p : Nat) (cats : List Str) (kw kw2 : Str)
    (htrim : trim kw = trim kw2) :
    applyFilter nowMs ⟨kw, p, cats⟩ store prevVisible =
      applyFilter nowMs ⟨kw2, p, cats⟩ store prevVisible ∧
    (trim kw = [] → p = 0 → cats = [] →
      applyFilter nowMs ⟨kw, p, cats⟩ store prevVisible =
        (noFilterLayers, prevVisible)) := by
  have hpk : processKeyword kw = processKeyword kw2 := by
    unfold processKeyword
    rw [trim_toLower, trim_toLower, htrim]
  have hcrit : criteriaActive ⟨kw, p, cats⟩ = criteriaActive ⟨kw2, p, cats⟩ := by
    simp only [criteriaActive, htrim]
  have hfm : featureMatches nowMs ⟨kw, p, cats⟩ =
      featureMatches nowMs ⟨kw2, p, cats⟩ := by
    funext f
    simp only [featureMatches, hpk]
  constructor
  · unfold applyFilter
    rw [hcrit]
    by_cases hact : criteriaActive ⟨kw2, p, cats⟩ = true
    · rw [if_pos hact, if_pos hact]
      unfold applyCombinedFilter fullMatchSet
      rw [hfm]
    · rw [if_neg hact, if_neg hact]
  · intro h0 hp hc
    subst hp
    subst hc
    have hfalse : criteriaActive ⟨kw, 0, []⟩ = false := by
      simp [criteriaActive, h0]
    simp [applyFilter, hfalse]

theorem trim_invariance_witness :
    trim [32, 32] = trim [] ∧
    (applyFilter 0 ⟨[32, 32], 0, []⟩ [] 0 =
        applyFilter 0 ⟨[], 0, []⟩ [] 0 ∧
      (trim [32, 32] = [] → 0 = 0 → ([] : List Str) = [] →
        applyFilter 0 ⟨[32, 32], 0, []⟩ [] 0 = (noFilterLayers, 0))) :=
  ⟨by decide, trim_invariance 0 [] 0 0 [] [32, 32] [] (by decide)⟩
